import Mathlib

/-!
# Verification of the OpenFAST geometry extractor

A shallow embedding of `src/python/geometry_extractor.py` (class
`GeometryExtractor`): the file store, the tolerant line-value reader,
the main / ElastoDyn / blade-table / tower-table / AeroDyn parsers and
the top-level aggregator, together with theorems settling the frozen
claims about the specification.

Python floats are modelled by exact decimal numbers (`Dec`, an integer
numerator over a power of ten, kept in canonical form), which covers
every value the program manipulates: all numbers are produced by
parsing decimal literals and combined only by doubling and addition.
String operations are modelled over the underlying character lists so
that every definition evaluates by kernel reduction.
-/

namespace FASTr

/-! ## String helpers (Python semantics, over character lists) -/

/-- Python whitespace test restricted to the ASCII characters that occur
in the input files. -/
def isWS (c : Char) : Bool := c = ' ' || c = '\t' || c = '\r' || c = '\n'

/-- Drop leading and trailing characters satisfying `p` (Python `strip`). -/
def trimList (p : Char → Bool) (l : List Char) : List Char :=
  ((l.dropWhile p).reverse.dropWhile p).reverse

/-- Python `str.strip()`. -/
def pyTrim (s : String) : String := ⟨trimList isWS s.data⟩

/-- Python `str.split()` on a character list: whitespace-delimited words,
empty pieces dropped.  `acc` holds the characters of the word currently
being scanned, in reverse. -/
def pyWordsAux : List Char → List Char → List String
  | [], acc => if acc = [] then [] else [String.mk acc.reverse]
  | c :: cs, acc =>
    if isWS c then
      if acc = [] then pyWordsAux cs []
      else String.mk acc.reverse :: pyWordsAux cs []
    else pyWordsAux cs (c :: acc)

/-- Python `str.split()`. -/
def pySplit (s : String) : List String := pyWordsAux s.data []

/-- Python `s.split('\n')` on a character list. -/
def splitNl : List Char → List String
  | [] => [""]
  | c :: cs =>
    if c = '\n' then "" :: splitNl cs
    else
      match splitNl cs with
      | [] => [String.mk [c]]
      | s :: rest => String.mk (c :: s.data) :: rest

/-- Python `s.split('\n')`. -/
def pyLines (s : String) : List String := splitNl s.data

/-- `p` occurs as a contiguous substring of `l`. -/
def isSubChars (p : List Char) : List Char → Bool
  | [] => p.isEmpty
  | c :: cs => List.isPrefixOf p (c :: cs) || isSubChars p cs

/-- Python `pat in s` (substring containment). -/
def containsSub (pat s : String) : Bool := isSubChars pat.data s.data

/-- Python `s.startswith(p)`. -/
def pyStartsWith (s p : String) : Bool := List.isPrefixOf p.data s.data

/-- Python `s.endswith(p)`. -/
def pyEndsWith (s p : String) : Bool := List.isSuffixOf p.data s.data

/-- Python `s.upper()` (ASCII). -/
def pyUpper (s : String) : String := ⟨s.data.map Char.toUpper⟩

/-- Python `s.lower()` (ASCII). -/
def pyLower (s : String) : String := ⟨s.data.map Char.toLower⟩

/-- The delimiter class of `re.split(r'[!\-]', ...)`: `!` or `-`. -/
def notDelim (c : Char) : Bool := c ≠ '!' && c ≠ '-'

/-- The part of `s` before the first `!` or `-`, i.e. `re.split(r'[!\-]', s)[0]`. -/
def takeBeforeDelim (s : String) : String := ⟨s.data.takeWhile notDelim⟩

/-- Strip all leading and trailing occurrences of `c` (Python `strip(c)`). -/
def stripRun (c : Char) (s : String) : String := ⟨trimList (· = c) s.data⟩

/-- Python `value.strip('"').strip("'")`. -/
def stripQuotes (s : String) : String := stripRun '\'' (stripRun '"' s)

/-- `s.split('!')[0]`: the part of the line before an inline comment. -/
def takeBeforeBang (s : String) : String := ⟨s.data.takeWhile (fun c => c ≠ '!')⟩

/-! ## Exact decimal numbers (the model of Python floats) -/

/-- An exact decimal number `num / 10 ^ exp`, kept canonical: either
`exp = 0` or `num` is not divisible by ten.  Every float manipulated by
the extractor is such a number (parsed from decimal text, combined only
by doubling and addition). -/
structure Dec where
  num : Int
  exp : Nat
deriving Repr, DecidableEq

/-- The rational value of a decimal. -/
def Dec.val (d : Dec) : ℚ := (d.num : ℚ) / (10 : ℚ) ^ d.exp

/-- Canonicalize: strip factors of ten shared between numerator and exponent. -/
def decNorm : Int → Nat → Dec
  | n, 0 => ⟨n, 0⟩
  | n, e + 1 => if n % 10 = 0 then decNorm (n / 10) e else ⟨n, e + 1⟩

def Dec.zero : Dec := ⟨0, 0⟩

def Dec.one : Dec := ⟨1, 0⟩

/-- Addition (align exponents, renormalize). -/
def Dec.add (a b : Dec) : Dec :=
  let e := max a.exp b.exp
  decNorm (a.num * (10 : Int) ^ (e - a.exp) + b.num * (10 : Int) ^ (e - b.exp)) e

/-- Scaling by an integer (renormalize). -/
def Dec.scale (k : Int) (a : Dec) : Dec := decNorm (k * a.num) a.exp

/-- Negation. -/
def Dec.neg (a : Dec) : Dec := ⟨-a.num, a.exp⟩

/-- Order on decimals by cross multiplication. -/
def Dec.le (a b : Dec) : Bool :=
  a.num * (10 : Int) ^ b.exp ≤ b.num * (10 : Int) ^ a.exp

/-- Apply a base-ten exponent `k` (for scientific notation), exactly. -/
def Dec.shift (k : Int) (a : Dec) : Dec :=
  match k with
  | .ofNat n => decNorm (a.num * (10 : Int) ^ n) a.exp
  | .negSucc n => decNorm a.num (a.exp + (n + 1))

/-! ## Python numeric parsing (`float(s)` and `int(s)`) -/

/-- Numeric value of a digit list (most significant first). -/
def digitsVal (l : List Char) : Nat :=
  l.foldl (fun a c => a * 10 + (c.toNat - 48)) 0

/-- Parse an unsigned integer digit string. -/
def parseDigits (l : List Char) : Option Nat :=
  if l ≠ [] ∧ l.all Char.isDigit then some (digitsVal l) else none

/-- Parse the exponent part of a float literal (after `e`/`E`). -/
def parseExpPart (l : List Char) : Option Int :=
  match l with
  | '+' :: r => (parseDigits r).map (fun n => (n : Int))
  | '-' :: r => (parseDigits r).map (fun n => -(n : Int))
  | r => (parseDigits r).map (fun n => (n : Int))

/-- Parse an unsigned float literal: digits, optional point with digits,
optional exponent.  Mirrors the grammar `float` accepts on the tokens
this program feeds it. -/
def parsePosFloat (l : List Char) : Option Dec :=
  let intD := l.takeWhile Char.isDigit
  let rest := l.dropWhile Char.isDigit
  match rest with
  | [] => if intD = [] then none else some (decNorm (digitsVal intD) 0)
  | '.' :: rest2 =>
    let fracD := rest2.takeWhile Char.isDigit
    let rest3 := rest2.dropWhile Char.isDigit
    if intD = [] ∧ fracD = [] then none
    else
      let base := decNorm (digitsVal intD * (10 : Int) ^ fracD.length + digitsVal fracD)
        fracD.length
      match rest3 with
      | [] => some base
      | e :: es =>
        if e = 'e' ∨ e = 'E' then (parseExpPart es).map (fun k => base.shift k) else none
  | e :: es =>
    if (e = 'e' ∨ e = 'E') ∧ intD ≠ [] then
      (parseExpPart es).map (fun k => (decNorm (digitsVal intD) 0).shift k)
    else none

/-- Python `float(s)` on the tokens this program produces. -/
def pyFloat (s : String) : Option Dec :=
  match s.data with
  | '+' :: r => parsePosFloat r
  | '-' :: r => (parsePosFloat r).map Dec.neg
  | r => parsePosFloat r

/-- Python `int(s)`. -/
def pyInt (s : String) : Option Int :=
  match s.data with
  | '+' :: r => (parseDigits r).map (fun n => (n : Int))
  | '-' :: r => (parseDigits r).map (fun n => -(n : Int))
  | r => (parseDigits r).map (fun n => (n : Int))

/-- Left-pad a digit list with zeros to length `n`. -/
def padZeros (n : Nat) (l : List Char) : List Char :=
  List.replicate (n - l.length) '0' ++ l

/-- Python `repr` / f-string rendering of a float holding an exact
decimal value: minimal digits, always one decimal point. -/
def pyFloatRepr (d : Dec) : String :=
  let sign := if d.num < 0 then "-" else ""
  let ds := padZeros (d.exp + 1) (toString d.num.natAbs).data
  let ip := ds.take (ds.length - d.exp)
  let fp := ds.drop (ds.length - d.exp)
  sign ++ String.mk ip ++ "." ++ (if d.exp = 0 then "0" else String.mk fp)

/-! ## Data model (`self.geometry` and `self.files`) -/

/-- One row of the blade distributed-property table. -/
structure BladeStation where
  spanFraction : Dec
  pitchAxis : Dec
  twist : Dec
deriving Repr, DecidableEq

/-- The shared mutable result record `self.geometry`.  `None` values
stored into the Python dicts are conflated with absent keys. -/
structure Geometry where
  numBlades : Option Int := none
  rotorDiameter : Option Dec := none
  hubHeight : Option Dec := none
  bladeLength : Option Dec := none
  precone : Option Dec := none
  bladeStations : Option (List BladeStation) := none
  towerHeight : Option Dec := none
  towerBase : Option Dec := none
  towerStations : Option (List Dec) := none
  hubRadius : Option Dec := none
  overhang : Option Dec := none
  shaftTilt : Option Dec := none
  errors : List String := []
  warnings : List String := []
  filesRead : List String := []
deriving Repr, DecidableEq

/-- The fresh result record built in `__init__`. -/
def initGeometry : Geometry := {}

/-- `self.files`: uploaded files in insertion order. -/
abbrev FileStore := List (String × String)

/-- `add_file`: Python dict insertion (an existing exact key keeps its
position and gets the new content; a new key is appended). -/
def add_file (files : FileStore) (filename content : String) : FileStore :=
  if (List.any files fun kv => kv.1 = filename) then
    List.map (fun kv => if kv.1 = filename then (filename, content) else kv) files
  else
    List.append files [(filename, content)]

/-! ## `get_file`: exact, then basename, then stored-basename lookup -/

/-- `os.path.basename`: the final path segment (after the last `/`). -/
def basename (p : String) : String :=
  match (p.data.splitOn '/').getLast? with
  | some seg => String.mk seg
  | none => p

/-- Python `filepath in self.files` / `self.files[filepath]` as one lookup. -/
def lookupExact (files : FileStore) (k : String) : Option String :=
  (List.find? (fun kv => kv.1 = k) files).map Prod.snd

/-- `get_file`: exact key match, then the requested basename against
exact keys, then the requested basename against stored basenames. -/
def get_file (files : FileStore) (filepath : String) : Option String :=
  match lookupExact files filepath with
  | some c => some c
  | none =>
    match lookupExact files (basename filepath) with
    | some c => some c
    | none => (List.find? (fun kv => basename kv.1 = basename filepath) files).map Prod.snd

/-! ## `read_value`: the tolerant line-value reader -/

/-- The target-type tag passed to `read_value`. -/
inductive VType | tstr | tint | tfloat | tbool
deriving Repr, DecidableEq

/-- A value produced by `read_value`. -/
inductive PyVal
  | pstr (s : String)
  | pint (n : Int)
  | pfloat (d : Dec)
  | pbool (b : Bool)
deriving Repr, DecidableEq

/-- `read_value(line, value_type)`: split the stripped line at the first
`!` or `-`, take the first whitespace token of the part before the
split, strip quotes, coerce; any failure yields `none`. -/
def read_value (line : String) (t : VType) : Option PyVal :=
  let part0 := takeBeforeDelim (pyTrim line)
  if pyTrim part0 = "" then none
  else
    match pySplit (pyTrim part0) with
    | [] => none
    | tok :: _ =>
      let v := stripQuotes tok
      match t with
      | .tstr => some (.pstr v)
      | .tint => (pyInt v).map .pint
      | .tfloat => (pyFloat v).map .pfloat
      | .tbool => some (.pbool (pyLower v ∈ (["true", "t", "yes", "1"] : List String)))

/-- `read_value(line, str)`. -/
def read_value_str (line : String) : Option String :=
  match read_value line .tstr with
  | some (.pstr s) => some s
  | _ => none

/-- `read_value(line, int)`. -/
def read_value_int (line : String) : Option Int :=
  match read_value line .tint with
  | some (.pint n) => some n
  | _ => none

/-- `read_value(line, float)`. -/
def read_value_float (line : String) : Option Dec :=
  match read_value line .tfloat with
  | some (.pfloat d) => some d
  | _ => none

/-! ## Table parsers (blade: skip bad rows; tower: stop at bad rows) -/

/-- Strip an inline `!` comment, as both table parsers do. -/
def strip_inline_comment (l : String) : String :=
  if containsSub "!" l then takeBeforeBang l else l

/-- A line consumed as a table row: non-blank, no leading `!` or `---`. -/
def is_table_row (l : String) : Bool :=
  pyTrim l ≠ "" && !pyStartsWith (pyTrim l) "!" && !pyStartsWith (pyTrim l) "---"

/-- The row loop of `parse_blade_file`: find the `BlFract` header, then
parse rows of at least three floats, skipping malformed rows. -/
def blade_loop : List String → Bool → List BladeStation → List BladeStation
  | [], _, acc => acc
  | l :: ls, inTable, acc =>
    if containsSub "BLFRACT" (pyUpper l) then blade_loop ls true acc
    else if inTable && is_table_row l then
      match pySplit (strip_inline_comment l) with
      | p0 :: p1 :: p2 :: _ =>
        match pyFloat p0, pyFloat p1, pyFloat p2 with
        | some a, some b, some c => blade_loop ls inTable (acc ++ [⟨a, b, c⟩])
        | _, _, _ => blade_loop ls inTable acc
      | _ => blade_loop ls inTable acc
    else blade_loop ls inTable acc

/-- `parse_blade_file`. -/
def parse_blade_file (content : String) (g : Geometry) : Bool × Geometry :=
  let stations := blade_loop (pyLines content) false []
  if stations ≠ [] then
    let n := stations.length
    (true, { g with
      bladeStations := some stations
      filesRead := g.filesRead ++ ["Blade properties"]
      warnings := g.warnings ++ [s!"Parsed {n} blade stations"] })
  else (true, g)

/-- The row loop of `parse_tower_file`: find the `HtFract` header, stop
at a `---` line, a non-numeric first token, or a value outside [0, 1]. -/
def tower_loop : List String → Bool → List Dec → List Dec
  | [], _, acc => acc
  | l :: ls, inTable, acc =>
    if inTable && pyStartsWith (pyTrim l) "---" then acc
    else if containsSub "HTFRACT" (pyUpper l) then tower_loop ls true acc
    else if inTable && is_table_row l then
      match pySplit (strip_inline_comment l) with
      | p0 :: _ =>
        match pyFloat p0 with
        | some h => if Dec.le Dec.zero h && Dec.le h Dec.one
            then tower_loop ls inTable (acc ++ [h]) else acc
        | none => acc
      | [] => tower_loop ls inTable acc
    else tower_loop ls inTable acc

/-- `parse_tower_file`. -/
def parse_tower_file (content : String) (g : Geometry) : Bool × Geometry :=
  let stations := tower_loop (pyLines content) false []
  if stations ≠ [] then
    let n := stations.length
    (true, { g with
      towerStations := some stations
      filesRead := g.filesRead ++ ["Tower properties"]
      warnings := g.warnings ++ [s!"Parsed {n} tower stations"] })
  else (true, g)

/-- `parse_aerodyn_file` (stub: record the label, succeed). -/
def parse_aerodyn_file (_content : String) (g : Geometry) : Bool × Geometry :=
  (true, { g with filesRead := g.filesRead ++ ["AeroDyn"] })

/-! ## `parse_elastodyn_file`: the structural parser -/

/-- The loop state of `parse_elastodyn_file`: the shared result record
plus the three local variables tracked across lines. -/
structure EdState where
  g : Geometry
  tower_ht : Option Dec
  twr2shft : Option Dec
  tower_bs_ht : Option Dec
deriving Repr, DecidableEq

/-- Python float truthiness: a present, non-zero value. -/
def truthyDec : Option Dec → Bool
  | some d => d ≠ Dec.zero
  | none => false

/-- Python string truthiness. -/
def truthyStr : Option String → Bool
  | some s => s ≠ ""
  | none => false

/-- One line of the `parse_elastodyn_file` scan: the `elif` keyword
chain, with table-file dispatch through `get_file`. -/
def ed_step (files : FileStore) (st : EdState) (rawLine : String) : EdState :=
  let line := pyTrim rawLine
  if containsSub "NumBl" line then
    { st with g := { st.g with numBlades := read_value_int line } }
  else if containsSub "TipRad" line then
    match read_value_float line with
    | some q =>
      if q ≠ Dec.zero then
        { st with g := { st.g with rotorDiameter := some (Dec.scale 2 q), bladeLength := some q } }
      else st
    | none => st
  else if containsSub "HubRad" line then
    { st with g := { st.g with hubRadius := read_value_float line } }
  else if containsSub "PreCone" line then
    { st with g := { st.g with precone := read_value_float line } }
  else if containsSub "OverHang" line then
    { st with g := { st.g with overhang := read_value_float line } }
  else if containsSub "ShftTilt" line then
    { st with g := { st.g with shaftTilt := read_value_float line } }
  else if containsSub "TowerHt" line && !containsSub "TowerBsHt" line then
    let th := read_value_float line
    let g2 := if truthyDec th then { st.g with towerHeight := th } else st.g
    { st with g := g2, tower_ht := th }
  else if containsSub "TowerBsHt" line then
    let tb := read_value_float line
    let g2 := match tb with
      | some q => { st.g with towerBase := some q }
      | none => st.g
    { st with g := g2, tower_bs_ht := tb }
  else if containsSub "Twr2Shft" line then
    { st with twr2shft := read_value_float line }
  else if containsSub "BldFile" line then
    let bf := read_value_str line
    let bc := if truthyStr bf then get_file files (bf.getD "") else none
    if truthyStr bc then { st with g := (parse_blade_file (bc.getD "") st.g).2 } else st
  else if containsSub "TwrFile" line then
    let tf := read_value_str line
    let tc := if truthyStr tf then get_file files (tf.getD "") else none
    if truthyStr tc then { st with g := (parse_tower_file (tc.getD "") st.g).2 } else st
  else st

/-- The `Twr2Shft={...}` term of the hub-height warning: Python
`twr2shft or 0` renders as the integer `0` when the offset is absent or
zero. -/
def offsetRepr : Option Dec → String
  | some t => if t = Dec.zero then "0" else pyFloatRepr t
  | none => "0"

/-- The informational hub-height warning string. -/
def hub_height_warning (hh th : Dec) (tw : Option Dec) : String :=
  "Hub height calculated: " ++ pyFloatRepr hh ++ "m (TowerHt=" ++ pyFloatRepr th ++
    " + Twr2Shft=" ++ offsetRepr tw ++ ")"

/-- `parse_elastodyn_file`: scan all lines, then derive the hub height
from the captured tower height and tower-to-shaft offset. -/
def parse_elastodyn_file (files : FileStore) (content : String) (g : Geometry) :
    Bool × Geometry :=
  let st := (pyLines content).foldl (ed_step files) ⟨g, none, none, none⟩
  let g2 :=
    match st.tower_ht with
    | some th =>
      let hh := match st.twr2shft with
        | some t => Dec.add th t
        | none => th
      { st.g with
        hubHeight := some hh
        warnings := st.g.warnings ++ [hub_height_warning hh th st.twr2shft] }
    | none => st.g
  (true, { g2 with filesRead := g2.filesRead ++ ["ElastoDyn"] })

/-! ## `parse_main_file`: the top-level scan -/

/-- A single quote character, used in the missing-file warning. -/
def sq : String := String.singleton '\''

/-- The warning for a structural-file reference that did not resolve. -/
def ed_not_found_warning (f : String) : String :=
  "EDFile " ++ sq ++ f ++ sq ++ " not found"

/-- The warning appended when no structural reference was found. -/
def no_ed_warning : String := "No ElastoDyn file reference found or file not uploaded"

/-- The loop state of `parse_main_file`. -/
structure MainState where
  g : Geometry
  found_ed : Bool
  found_aero : Bool
deriving Repr, DecidableEq

/-- A line matching the structural-file reference keywords. -/
def ed_keyword_match (line : String) : Bool :=
  containsSub "EDFile" line || containsSub "ElastoDyn input file" line

/-- A line matching the aerodynamic-file reference keywords. -/
def aero_keyword_match (line : String) : Bool :=
  containsSub "AeroFile" line || containsSub "AeroDyn input file" line

/-- A line skipped by the main scan: blank or full comment. -/
def main_skip (line : String) : Bool :=
  pyTrim line = "" || pyStartsWith (pyTrim line) "!" || pyStartsWith (pyTrim line) "---"

/-- One line of the `parse_main_file` scan. -/
def main_step (files : FileStore) (st : MainState) (line : String) : MainState :=
  if main_skip line then st
  else if ed_keyword_match line then
    let ed_file := read_value_str line
    let ed_content := if truthyStr ed_file then get_file files (ed_file.getD "") else none
    if truthyStr ed_content then
      { st with
        found_ed := true
        g := (parse_elastodyn_file files (ed_content.getD "") st.g).2 }
    else if truthyStr ed_file then
      { st with g := { st.g with
          warnings := st.g.warnings ++ [ed_not_found_warning (ed_file.getD "")] } }
    else st
  else if aero_keyword_match line then
    let aero_file := read_value_str line
    let aero_content := if truthyStr aero_file then get_file files (aero_file.getD "") else none
    if truthyStr aero_content then
      { st with
        found_aero := true
        g := (parse_aerodyn_file (aero_content.getD "") st.g).2 }
    else st
  else st

/-- `parse_main_file`. -/
def parse_main_file (files : FileStore) (content : String) (g : Geometry) :
    Bool × Geometry :=
  let st := (pyLines content).foldl (main_step files) ⟨g, false, false⟩
  let g2 := if st.found_ed then st.g
    else { st.g with warnings := st.g.warnings ++ [no_ed_warning] }
  (true, { g2 with filesRead := g2.filesRead ++ ["main.fst"] })

/-! ## `extract_geometry`: the aggregator -/

/-- The content of the first stored file whose name ends in `.fst`. -/
def first_fst (files : FileStore) : Option String :=
  (List.find? (fun kv => pyEndsWith kv.1 ".fst") files).map Prod.snd

/-- `extract_geometry`: select the main file, parse it, report
`success = parseSucceeded AND errors empty`.  A missing (or empty, by
Python truthiness) main file short-circuits with an error. -/
def extract_geometry (files : FileStore) : Bool × Geometry :=
  let mainFile := first_fst files
  if truthyStr mainFile then
    let r := parse_main_file files (mainFile.getD "") initGeometry
    (r.1 && r.2.errors.isEmpty, r.2)
  else
    (false, { initGeometry with errors := initGeometry.errors ++ ["No .fst file found"] })

/-- `extract_openfast_geometry`: build the store, then extract. -/
def extract_openfast_geometry (files_dict : List (String × String)) : Bool × Geometry :=
  extract_geometry (files_dict.foldl (fun fs kv => add_file fs kv.1 kv.2) [])

/-! ## Claim-support definitions (spec-side vocabulary) -/

/-- The scalar keywords of the structural parser's `elif` chain. -/
inductive EdKw
  | numBl | tipRad | hubRad | preCone | overHang | shftTilt
  | towerHt | towerBs | twr2Shft | bldFile | twrFile
deriving Repr, DecidableEq

/-- Which branch of the structural parser's `elif` chain a line takes:
the first keyword (in chain order) contained in the stripped line, with
the tower-height match accepted only when `TowerBsHt` is absent. -/
def ed_class (rawLine : String) : Option EdKw :=
  let l := pyTrim rawLine
  if containsSub "NumBl" l then some .numBl
  else if containsSub "TipRad" l then some .tipRad
  else if containsSub "HubRad" l then some .hubRad
  else if containsSub "PreCone" l then some .preCone
  else if containsSub "OverHang" l then some .overHang
  else if containsSub "ShftTilt" l then some .shftTilt
  else if containsSub "TowerHt" l && !containsSub "TowerBsHt" l then some .towerHt
  else if containsSub "TowerBsHt" l then some .towerBs
  else if containsSub "Twr2Shft" l then some .twr2Shft
  else if containsSub "BldFile" l then some .bldFile
  else if containsSub "TwrFile" l then some .twrFile
  else none

/-- A float read that counts only when it is Python-truthy (present and
non-zero), the guard used for tip radius and tower height. -/
def truthy_float_read (l : String) : Option Dec :=
  match read_value_float (pyTrim l) with
  | some q => if q = Dec.zero then none else some q
  | none => none

/-- The last line of `lines` (in encounter order) satisfying `c`. -/
def last_matching (c : String → Bool) (lines : List String) : Option String :=
  lines.reverse.find? c

/-- The last value (in encounter order) produced by `k` on `lines`. -/
def last_read {α : Type} (k : String → Option α) (lines : List String) : Option α :=
  (lines.reverse.filterMap k).head?

/-- Lines classified to keyword `kw` by the structural parser. -/
def ed_class_is (kw : EdKw) (l : String) : Bool := ed_class l = some kw

/-- The truthiness-guarded float read performed on a `kw`-classified
line (used by the tip-radius and tower-height writes). -/
def k_truthy (kw : EdKw) (l : String) : Option Dec :=
  if ed_class_is kw l then truthy_float_read l else none

/-- The plain float read performed on a `kw`-classified line (used by
the tower-base-elevation write). -/
def k_read (kw : EdKw) (l : String) : Option Dec :=
  if ed_class_is kw l then read_value_float (pyTrim l) else none

/-- The doubled truthy tip-radius read (the rotor-diameter write). -/
def k_rotor (l : String) : Option Dec := (k_truthy EdKw.tipRad l).map (Dec.scale 2)

/-- The last line classified to `kw`, in encounter order. -/
def last_kw_line (kw : EdKw) (lines : List String) : Option String :=
  last_matching (ed_class_is kw) lines

/-! # Claim theorems -/

/-! ## C2: `get_file` resolution order -/

/-- C2: for every requested name and file store, `get_file` tries exact
key match, then the requested basename against exact keys, then the
requested basename against stored basenames; the first match wins and no
match returns absent.  Requesting `"data/Blade1.dat"` when only
`"Blade1.dat"` is stored resolves to that content via the basename rule,
which fires exactly because the exact rule misses. -/
theorem c2_get_file_resolution (files : FileStore) (fp : String) :
    (∀ c, lookupExact files fp = some c → get_file files fp = some c)
    ∧ (lookupExact files fp = none →
        ∀ c, lookupExact files (basename fp) = some c → get_file files fp = some c)
    ∧ (lookupExact files fp = none → lookupExact files (basename fp) = none →
        get_file files fp =
          (List.find? (fun kv => basename kv.1 = basename fp) files).map Prod.snd)
    ∧ (∀ c, lookupExact [("Blade1.dat", c)] "data/Blade1.dat" = none
        ∧ get_file [("Blade1.dat", c)] "data/Blade1.dat" = some c) := by
  refine ⟨fun c h => ?_, fun h1 c h2 => ?_, fun h1 h2 => ?_, fun c => ⟨rfl, rfl⟩⟩
  · simp [get_file, h]
  · simp [get_file, h1, h2]
  · simp [get_file, h1, h2]

/-- Witness for C2 at a concrete store: the stored basename rule
resolves `"data/Blade1.dat"` to the content of `"Blade1.dat"`. -/
theorem c2_get_file_resolution_witness :
    lookupExact [("Blade1.dat", "X")] "data/Blade1.dat" = none
    ∧ get_file [("Blade1.dat", "X")] "data/Blade1.dat" = some "X" := by
  refine ⟨by decide, ?_⟩
  exact (c2_get_file_resolution [("Blade1.dat", "X")] "data/Blade1.dat").2.1 (by decide) "X"
    (by decide)

/-! ## C3: the tower table stops at the first bad row -/

/-- C3: once the height-fraction header was found, a row whose first
token fails float parsing terminates the tower table immediately, and a
row parsing to a value outside [0, 1] terminates it immediately without
recording the row; the table `HtFract / 0.0 / 0.5 / 1.5` therefore
yields exactly the two stations 0.0 and 0.5 and a warning reporting two
stations. -/
theorem c3_tower_table_stops_on_bad_row
    (l : String) (ls : List String) (acc : List Dec) (t : String) (rest : List String)
    (hdash : pyStartsWith (pyTrim l) "---" = false)
    (hhdr : containsSub "HTFRACT" (pyUpper l) = false)
    (hrow : is_table_row l = true)
    (htok : pySplit (strip_inline_comment l) = t :: rest) :
    (pyFloat t = none → tower_loop (l :: ls) true acc = acc)
    ∧ (∀ h, pyFloat t = some h → (Dec.le Dec.zero h && Dec.le h Dec.one) = false →
        tower_loop (l :: ls) true acc = acc)
    ∧ (parse_tower_file "HtFract\n0.0\n0.5\n1.5" initGeometry).2.towerStations
        = some [⟨0, 0⟩, ⟨5, 1⟩]
    ∧ (parse_tower_file "HtFract\n0.0\n0.5\n1.5" initGeometry).2.warnings
        = ["Parsed 2 tower stations"] := by
  refine ⟨fun hfl => ?_, fun h hfl hrange => ?_, by decide, by decide⟩
  · simp [tower_loop, hdash, hhdr, hrow, htok, hfl]
  · simp [tower_loop, hdash, hhdr, hrow, htok, hfl, hrange]

/-- Witness for C3: a non-numeric row after the header ends the table,
discarding the remaining rows. -/
theorem c3_tower_table_stops_on_bad_row_witness :
    pyFloat "abc" = none ∧ tower_loop ["abc", "0.3"] true [⟨0, 0⟩] = [⟨0, 0⟩] := by
  refine ⟨by decide, ?_⟩
  exact (c3_tower_table_stops_on_bad_row "abc" ["0.3"] [⟨0, 0⟩] "abc" []
    (by decide) (by decide) (by decide) (by decide)).1 (by decide)

/-! ## C4: the blade table skips bad rows and continues -/

/-- C4: once the span-fraction header was found, a row with fewer than
three whitespace tokens, or whose first three tokens do not all parse as
floats, is skipped without terminating the blade table; the table
`BlFract / 0.0 0.0 5.0 / x y z / 1.0 0.0 -2.0` therefore yields exactly
two stations, in file order. -/
theorem c4_blade_table_skips_bad_rows
    (l : String) (ls : List String) (acc : List BladeStation)
    (hhdr : containsSub "BLFRACT" (pyUpper l) = false)
    (hrow : is_table_row l = true) :
    ((pySplit (strip_inline_comment l)).length < 3 →
        blade_loop (l :: ls) true acc = blade_loop ls true acc)
    ∧ (∀ t0 t1 t2 r, pySplit (strip_inline_comment l) = t0 :: t1 :: t2 :: r →
        pyFloat t0 = none ∨ pyFloat t1 = none ∨ pyFloat t2 = none →
        blade_loop (l :: ls) true acc = blade_loop ls true acc)
    ∧ (parse_blade_file "BlFract\n0.0 0.0 5.0\nx y z\n1.0 0.0 -2.0" initGeometry).2.bladeStations
        = some [⟨⟨0, 0⟩, ⟨0, 0⟩, ⟨5, 0⟩⟩, ⟨⟨1, 0⟩, ⟨0, 0⟩, ⟨-2, 0⟩⟩]
    ∧ (parse_blade_file "BlFract\n0.0 0.0 5.0\nx y z\n1.0 0.0 -2.0" initGeometry).2.warnings
        = ["Parsed 2 blade stations"] := by
  refine ⟨fun hlen => ?_, fun t0 t1 t2 r htok hbad => ?_, by decide, by decide⟩
  · rcases hsplit : pySplit (strip_inline_comment l) with _ | ⟨a, _ | ⟨b, _ | ⟨c, r⟩⟩⟩
    · simp [blade_loop, hhdr, hrow, hsplit]
    · simp [blade_loop, hhdr, hrow, hsplit]
    · simp [blade_loop, hhdr, hrow, hsplit]
    · rw [hsplit] at hlen
      simp [List.length_cons] at hlen
      omega
  · rcases hbad with hb | hb | hb <;> simp [blade_loop, hhdr, hrow, htok, hb]

/-- Witness for C4: the malformed row `x y z` is skipped and parsing
continues with the rows after it. -/
theorem c4_blade_table_skips_bad_rows_witness :
    pyFloat "x" = none
    ∧ blade_loop ["x y z", "1.0 0.0 -2.0"] true [] = blade_loop ["1.0 0.0 -2.0"] true [] := by
  refine ⟨by decide, ?_⟩
  exact (c4_blade_table_skips_bad_rows "x y z" ["1.0 0.0 -2.0"] []
    (by decide) (by decide)).2.1 "x" "y" "z" [] (by decide) (Or.inl (by decide))

/-! ## C5: reading `NumBl 3 ! 3 blades` and `TipRad 50.0 -` -/

/-- C5 counterexample: the tolerant reader takes the first token before
the `!`/`-` split, which on the keyword-first line `NumBl 3 ! 3 blades`
is the keyword itself, so integer coercion fails and yields absent, not
3; likewise the structural parser extracts nothing from
`TipRad 50.0 -`, leaving `rotorDiameter` and `blades.length` unset. -/
theorem c5_counterexample :
    read_value_int "NumBl 3 ! 3 blades" = none
    ∧ (parse_elastodyn_file [] "TipRad 50.0 -" initGeometry).2.rotorDiameter = none
    ∧ (parse_elastodyn_file [] "TipRad 50.0 -" initGeometry).2.bladeLength = none := by
  decide

/-- C5 amended: on the value-first lines the files actually use, reading
`3 NumBl ! 3 blades` with integer coercion yields 3, and processing
`50.0 TipRad -` in the structural parser yields
`rotorDiameter = 100.0` and `blades.length = 50.0`. -/
theorem c5_amended :
    read_value_int "3 NumBl ! 3 blades" = some 3
    ∧ (parse_elastodyn_file [] "50.0 TipRad -" initGeometry).2.rotorDiameter = some ⟨100, 0⟩
    ∧ (parse_elastodyn_file [] "50.0 TipRad -" initGeometry).2.bladeLength = some ⟨50, 0⟩ := by
  decide

/-! ## C6: hub height derivation and its warning -/

/-- C6 counterexample: on the keyword-first lines `TowerHt 80.0` and
`Twr2Shft 5.0` the reader returns absent for both values (the first
token is the keyword), so no hub height is computed and no warning is
appended at all, contradicting `hubHeight == 85.0`. -/
theorem c6_counterexample :
    (parse_elastodyn_file [] "TowerHt 80.0\nTwr2Shft 5.0" initGeometry).2.hubHeight = none
    ∧ (parse_elastodyn_file [] "TowerHt 80.0\nTwr2Shft 5.0" initGeometry).2.warnings = [] := by
  decide

/-- C6 amended: on the value-first lines the files actually use, a file
with `80.0 TowerHt` and `5.0 Twr2Shft` yields `hubHeight = 85.0` and a
warning citing both inputs; a file with `80.0 TowerHt` alone yields
`hubHeight = 80.0` and the warning's offset term reads as 0. -/
theorem c6_amended :
    (parse_elastodyn_file [] "80.0 TowerHt\n5.0 Twr2Shft" initGeometry).2.hubHeight
        = some ⟨85, 0⟩
    ∧ (parse_elastodyn_file [] "80.0 TowerHt\n5.0 Twr2Shft" initGeometry).2.warnings
        = ["Hub height calculated: 85.0m (TowerHt=80.0 + Twr2Shft=5.0)"]
    ∧ (parse_elastodyn_file [] "80.0 TowerHt" initGeometry).2.hubHeight = some ⟨80, 0⟩
    ∧ (parse_elastodyn_file [] "80.0 TowerHt" initGeometry).2.warnings
        = ["Hub height calculated: 80.0m (TowerHt=80.0 + Twr2Shft=0)"] := by
  decide

/-! ## Scalar-field preservation through the table parsers -/

lemma parse_blade_file_scalars (c : String) (g : Geometry) :
    (parse_blade_file c g).2.numBlades = g.numBlades
    ∧ (parse_blade_file c g).2.rotorDiameter = g.rotorDiameter
    ∧ (parse_blade_file c g).2.hubHeight = g.hubHeight
    ∧ (parse_blade_file c g).2.bladeLength = g.bladeLength
    ∧ (parse_blade_file c g).2.precone = g.precone
    ∧ (parse_blade_file c g).2.towerHeight = g.towerHeight
    ∧ (parse_blade_file c g).2.towerBase = g.towerBase
    ∧ (parse_blade_file c g).2.hubRadius = g.hubRadius
    ∧ (parse_blade_file c g).2.overhang = g.overhang
    ∧ (parse_blade_file c g).2.shaftTilt = g.shaftTilt
    ∧ (parse_blade_file c g).2.errors = g.errors := by
  simp only [parse_blade_file]
  split <;> simp

lemma parse_tower_file_scalars (c : String) (g : Geometry) :
    (parse_tower_file c g).2.numBlades = g.numBlades
    ∧ (parse_tower_file c g).2.rotorDiameter = g.rotorDiameter
    ∧ (parse_tower_file c g).2.hubHeight = g.hubHeight
    ∧ (parse_tower_file c g).2.bladeLength = g.bladeLength
    ∧ (parse_tower_file c g).2.precone = g.precone
    ∧ (parse_tower_file c g).2.towerHeight = g.towerHeight
    ∧ (parse_tower_file c g).2.towerBase = g.towerBase
    ∧ (parse_tower_file c g).2.hubRadius = g.hubRadius
    ∧ (parse_tower_file c g).2.overhang = g.overhang
    ∧ (parse_tower_file c g).2.shaftTilt = g.shaftTilt
    ∧ (parse_tower_file c g).2.errors = g.errors := by
  simp only [parse_tower_file]
  split <;> simp

/-! ## C1: aggregator success and short-circuit -/

/-- C1 counterexample: the store `[("a.fst", "")]` has a name ending in
`.fst`, so the claim requires parsing to run and success to equal the
parse result with empty errors (which would be `true` here); but the
aggregator tests the main file's content for Python truthiness, so the
empty main file takes the "no main file" path: an error is appended, no
parsing is attempted, and success is `false`. -/
theorem c1_counterexample :
    pyEndsWith "a.fst" ".fst" = true
    ∧ (parse_main_file [("a.fst", "")] "" initGeometry).1 = true
    ∧ (parse_main_file [("a.fst", "")] "" initGeometry).2.errors = []
    ∧ extract_geometry [("a.fst", "")]
        = (false, { initGeometry with errors := ["No .fst file found"] }) := by
  decide

/-- C1 amended: if no stored name ends in `.fst`, or the first such
file's content is empty, an error is appended and the aggregator returns
`success = false` immediately with no parsing attempted; otherwise it
returns the parse of that content, with success true iff the parse
succeeded and the errors list is empty — warnings play no role in
success. -/
theorem c1_amended (files : FileStore) :
    ((∀ kv ∈ files, pyEndsWith kv.1 ".fst" = false) →
      extract_geometry files = (false, { initGeometry with errors := ["No .fst file found"] }))
    ∧ (first_fst files = some "" →
      extract_geometry files = (false, { initGeometry with errors := ["No .fst file found"] }))
    ∧ (∀ c, first_fst files = some c → c ≠ "" →
        extract_geometry files =
          ((parse_main_file files c initGeometry).1
              && (parse_main_file files c initGeometry).2.errors.isEmpty,
            (parse_main_file files c initGeometry).2))
    ∧ ((extract_geometry files).1 = true ↔
        ∃ c, first_fst files = some c ∧ c ≠ ""
          ∧ (parse_main_file files c initGeometry).1 = true
          ∧ (parse_main_file files c initGeometry).2.errors = []) := by
  refine ⟨fun h => ?_, fun h => ?_, fun c h hne => ?_, ?_⟩
  · have hf : first_fst files = none := by
      unfold first_fst
      rw [List.find?_eq_none.mpr fun kv hkv => by simp [h kv hkv]]
      rfl
    simp [extract_geometry, hf, truthyStr, initGeometry]
  · simp [extract_geometry, h, truthyStr, initGeometry]
  · simp [extract_geometry, h, truthyStr, hne]
  · unfold extract_geometry
    cases hf : first_fst files with
    | none => simp [hf, truthyStr]
    | some c =>
      by_cases hc : c = ""
      · subst hc
        simp [truthyStr]
      · simp [truthyStr, hc, Bool.and_eq_true, List.isEmpty_iff]

/-- Witness for C1 at concrete stores: a store with no `.fst` name takes
the error path, and a store whose first `.fst` file is non-empty returns
the parse verdict. -/
theorem c1_amended_witness :
    extract_geometry [("a.txt", "x")]
        = (false, { initGeometry with errors := ["No .fst file found"] })
    ∧ extract_geometry [("m.fst", "x")]
        = ((parse_main_file [("m.fst", "x")] "x" initGeometry).1
              && (parse_main_file [("m.fst", "x")] "x" initGeometry).2.errors.isEmpty,
            (parse_main_file [("m.fst", "x")] "x" initGeometry).2) :=
  ⟨(c1_amended [("a.txt", "x")]).1 (by decide),
   (c1_amended [("m.fst", "x")]).2.2.1 "x" (by decide) (by decide)⟩

/-! ## C8: the aerodynamic branch emits no warnings -/

lemma main_step_no_ed_warnings (files : FileStore) (st : MainState) (l : String)
    (h : main_skip l = true ∨ ed_keyword_match l = false) :
    (main_step files st l).g.warnings = st.g.warnings := by
  simp only [main_step]
  rcases h with h | h
  · simp [h]
  · by_cases hs : main_skip l
    · simp [hs]
    · simp only [hs, Bool.false_eq_true, if_false, h]
      repeat' split
      all_goals simp [parse_aerodyn_file]

lemma main_step_no_ed_found (files : FileStore) (st : MainState) (l : String)
    (h : main_skip l = true ∨ ed_keyword_match l = false) :
    (main_step files st l).found_ed = st.found_ed := by
  simp only [main_step]
  rcases h with h | h
  · simp [h]
  · by_cases hs : main_skip l
    · simp [hs]
    · simp only [hs, Bool.false_eq_true, if_false, h]
      repeat' split
      all_goals rfl

lemma main_loop_no_ed (files : FileStore) (lines : List String)
    (h : ∀ l ∈ lines, main_skip l = true ∨ ed_keyword_match l = false) :
    ∀ st : MainState,
      (lines.foldl (main_step files) st).g.warnings = st.g.warnings
      ∧ (lines.foldl (main_step files) st).found_ed = st.found_ed := by
  induction lines with
  | nil => exact fun st => ⟨rfl, rfl⟩
  | cons l ls ih =>
    intro st
    have h1w := main_step_no_ed_warnings files st l (h l (by simp))
    have h1f := main_step_no_ed_found files st l (h l (by simp))
    have h2 := ih (fun x hx => h x (by simp [hx])) (main_step files st l)
    exact ⟨h2.1.trans h1w, h2.2.trans h1f⟩

/-- C8 counterexample: in `parse_main_file`, a line whose aerodynamic
filename is read but cannot be resolved appends no warning at all — only
the end-of-scan structural warning appears, and no warning names the
missing `aero.dat`.  This contradicts the claimed symmetry with the
structural reference. -/
theorem c8_counterexample :
    read_value_str "aero.dat AeroFile" = some "aero.dat"
    ∧ get_file [] "aero.dat" = none
    ∧ (parse_main_file [] "aero.dat AeroFile" initGeometry).2.warnings = [no_ed_warning]
    ∧ containsSub "aero.dat" no_ed_warning = false := by
  decide

/-- C8 amended: the aerodynamic branch is not symmetric to the
structural one on failure: it never appends a warning, whether the
reference is absent, unreadable, or read but unresolved.  For every main
file none of whose effective lines matches the structural keywords, the
warnings of the result consist of exactly the no-structural-reference
message, regardless of aerodynamic references and whether they
resolve. -/
theorem c8_amended (files : FileStore) (content : String)
    (h : ∀ l ∈ pyLines content, main_skip l = true ∨ ed_keyword_match l = false) :
    (parse_main_file files content initGeometry).2.warnings = [no_ed_warning] := by
  have hw : (List.foldl (main_step files) ⟨initGeometry, false, false⟩
      (pyLines content)).g.warnings = [] :=
    (main_loop_no_ed files (pyLines content) h ⟨initGeometry, false, false⟩).1
  have hfe : (List.foldl (main_step files) ⟨initGeometry, false, false⟩
      (pyLines content)).found_ed = false :=
    (main_loop_no_ed files (pyLines content) h ⟨initGeometry, false, false⟩).2
  simp only [parse_main_file]
  rw [hfe]
  simp [hw]

/-- Witness for C8: a main file holding one unresolved aerodynamic
reference produces only the structural warning. -/
theorem c8_amended_witness :
    (parse_main_file [] "aero.dat AeroFile" initGeometry).2.warnings = [no_ed_warning] :=
  c8_amended [] "aero.dat AeroFile" (by decide)

/-! ## C9: TowerHt and TowerBsHt matches are mutually exclusive -/

lemma ed_class_towerHt (l : String) (h : ed_class l = some EdKw.towerHt) :
    containsSub "TowerHt" (pyTrim l) = true
    ∧ containsSub "TowerBsHt" (pyTrim l) = false := by
  simp only [ed_class] at h
  by_cases h1 : containsSub "NumBl" (pyTrim l) = true
  · rw [if_pos h1] at h; exact absurd h (by simp)
  rw [if_neg h1] at h
  by_cases h2 : containsSub "TipRad" (pyTrim l) = true
  · rw [if_pos h2] at h; exact absurd h (by simp)
  rw [if_neg h2] at h
  by_cases h3 : containsSub "HubRad" (pyTrim l) = true
  · rw [if_pos h3] at h; exact absurd h (by simp)
  rw [if_neg h3] at h
  by_cases h4 : containsSub "PreCone" (pyTrim l) = true
  · rw [if_pos h4] at h; exact absurd h (by simp)
  rw [if_neg h4] at h
  by_cases h5 : containsSub "OverHang" (pyTrim l) = true
  · rw [if_pos h5] at h; exact absurd h (by simp)
  rw [if_neg h5] at h
  by_cases h6 : containsSub "ShftTilt" (pyTrim l) = true
  · rw [if_pos h6] at h; exact absurd h (by simp)
  rw [if_neg h6] at h
  by_cases h7 : (containsSub "TowerHt" (pyTrim l) && !containsSub "TowerBsHt" (pyTrim l)) = true
  · rw [Bool.and_eq_true, Bool.not_eq_true'] at h7
    exact h7
  rw [if_neg h7] at h
  by_cases h8 : containsSub "TowerBsHt" (pyTrim l) = true
  · rw [if_pos h8] at h; exact absurd h (by simp)
  rw [if_neg h8] at h
  by_cases h9 : containsSub "Twr2Shft" (pyTrim l) = true
  · rw [if_pos h9] at h; exact absurd h (by simp)
  rw [if_neg h9] at h
  by_cases h10 : containsSub "BldFile" (pyTrim l) = true
  · rw [if_pos h10] at h; exact absurd h (by simp)
  rw [if_neg h10] at h
  by_cases h11 : containsSub "TwrFile" (pyTrim l) = true
  · rw [if_pos h11] at h; exact absurd h (by simp)
  rw [if_neg h11] at h
  exact absurd h (by simp)

/-- The `elif` chain of `ed_step`, re-expressed through the branch
classifier: every step is the action of the classified branch. -/
lemma ed_step_eq_branch (files : FileStore) (st : EdState) (l : String) :
    ed_step files st l =
      match ed_class l with
      | some .numBl => { st with g := { st.g with numBlades := read_value_int (pyTrim l) } }
      | some .tipRad =>
        (match read_value_float (pyTrim l) with
          | some q =>
            if q ≠ Dec.zero then
              { st with g := { st.g with
                  rotorDiameter := some (Dec.scale 2 q), bladeLength := some q } }
            else st
          | none => st)
      | some .hubRad => { st with g := { st.g with hubRadius := read_value_float (pyTrim l) } }
      | some .preCone => { st with g := { st.g with precone := read_value_float (pyTrim l) } }
      | some .overHang => { st with g := { st.g with overhang := read_value_float (pyTrim l) } }
      | some .shftTilt => { st with g := { st.g with shaftTilt := read_value_float (pyTrim l) } }
      | some .towerHt =>
        let th := read_value_float (pyTrim l)
        let g2 := if truthyDec th then { st.g with towerHeight := th } else st.g
        { st with g := g2, tower_ht := th }
      | some .towerBs =>
        let tb := read_value_float (pyTrim l)
        let g2 := match tb with
          | some q => { st.g with towerBase := some q }
          | none => st.g
        { st with g := g2, tower_bs_ht := tb }
      | some .twr2Shft => { st with twr2shft := read_value_float (pyTrim l) }
      | some .bldFile =>
        let bf := read_value_str (pyTrim l)
        let bc := if truthyStr bf then get_file files (bf.getD "") else none
        if truthyStr bc then { st with g := (parse_blade_file (bc.getD "") st.g).2 } else st
      | some .twrFile =>
        let tf := read_value_str (pyTrim l)
        let tc := if truthyStr tf then get_file files (tf.getD "") else none
        if truthyStr tc then { st with g := (parse_tower_file (tc.getD "") st.g).2 } else st
      | none => st := by
  simp only [ed_step, ed_class]
  by_cases h1 : containsSub "NumBl" (pyTrim l) = true
  · simp only [if_pos h1]
  simp only [if_neg h1]
  by_cases h2 : containsSub "TipRad" (pyTrim l) = true
  · simp only [if_pos h2]
  simp only [if_neg h2]
  by_cases h3 : containsSub "HubRad" (pyTrim l) = true
  · simp only [if_pos h3]
  simp only [if_neg h3]
  by_cases h4 : containsSub "PreCone" (pyTrim l) = true
  · simp only [if_pos h4]
  simp only [if_neg h4]
  by_cases h5 : containsSub "OverHang" (pyTrim l) = true
  · simp only [if_pos h5]
  simp only [if_neg h5]
  by_cases h6 : containsSub "ShftTilt" (pyTrim l) = true
  · simp only [if_pos h6]
  simp only [if_neg h6]
  by_cases h7 : (containsSub "TowerHt" (pyTrim l) && !containsSub "TowerBsHt" (pyTrim l)) = true
  · simp only [if_pos h7]
  simp only [if_neg h7]
  by_cases h8 : containsSub "TowerBsHt" (pyTrim l) = true
  · simp only [if_pos h8]
  simp only [if_neg h8]
  by_cases h9 : containsSub "Twr2Shft" (pyTrim l) = true
  · simp only [if_pos h9]
  simp only [if_neg h9]
  by_cases h10 : containsSub "BldFile" (pyTrim l) = true
  · simp only [if_pos h10]
  simp only [if_neg h10]
  by_cases h11 : containsSub "TwrFile" (pyTrim l) = true
  · simp only [if_pos h11]
  simp only [if_neg h11]

/-- All scalar projections of one structural-parser step, expressed
through the branch classifier: the chain fields overwrite on their
keyword's line (possibly with an absent value), the truthiness-guarded
fields keep their old value unless a truthy (or, for the tower base, a
successful) read arrives, and the hub height is never written during
the scan. -/
lemma ed_step_fields (files : FileStore) (st : EdState) (l : String) :
    ((ed_step files st l).g.numBlades =
      if ed_class_is EdKw.numBl l then read_value_int (pyTrim l) else st.g.numBlades)
    ∧ ((ed_step files st l).g.precone =
      if ed_class_is EdKw.preCone l then read_value_float (pyTrim l) else st.g.precone)
    ∧ ((ed_step files st l).g.hubRadius =
      if ed_class_is EdKw.hubRad l then read_value_float (pyTrim l) else st.g.hubRadius)
    ∧ ((ed_step files st l).g.overhang =
      if ed_class_is EdKw.overHang l then read_value_float (pyTrim l) else st.g.overhang)
    ∧ ((ed_step files st l).g.shaftTilt =
      if ed_class_is EdKw.shftTilt l then read_value_float (pyTrim l) else st.g.shaftTilt)
    ∧ ((ed_step files st l).g.rotorDiameter = (k_rotor l).or st.g.rotorDiameter)
    ∧ ((ed_step files st l).g.bladeLength = (k_truthy EdKw.tipRad l).or st.g.bladeLength)
    ∧ ((ed_step files st l).g.towerHeight = (k_truthy EdKw.towerHt l).or st.g.towerHeight)
    ∧ ((ed_step files st l).g.towerBase = (k_read EdKw.towerBs l).or st.g.towerBase)
    ∧ ((ed_step files st l).g.hubHeight = st.g.hubHeight)
    ∧ ((ed_step files st l).tower_ht =
      if ed_class_is EdKw.towerHt l then read_value_float (pyTrim l) else st.tower_ht)
    ∧ ((ed_step files st l).twr2shft =
      if ed_class_is EdKw.twr2Shft l then read_value_float (pyTrim l) else st.twr2shft) := by
  rw [ed_step_eq_branch]
  cases hc : ed_class l with
  | none => simp [Option.or, ed_class_is, k_truthy, k_read, k_rotor, hc]
  | some kw =>
    cases kw
    case tipRad =>
      dsimp only
      cases h : read_value_float (pyTrim l) with
      | none => simp [Option.or, ed_class_is, k_truthy, k_read, k_rotor, truthy_float_read, hc, h]
      | some q =>
        by_cases hq : q = Dec.zero <;>
          simp [Option.or, ed_class_is, k_truthy, k_read, k_rotor, truthy_float_read, truthyDec, hc, h, hq]
    case towerHt =>
      dsimp only
      cases h : read_value_float (pyTrim l) with
      | none => simp [Option.or, ed_class_is, k_truthy, k_read, k_rotor, truthy_float_read, truthyDec, hc, h]
      | some q =>
        by_cases hq : q = Dec.zero <;>
          simp [Option.or, ed_class_is, k_truthy, k_read, k_rotor, truthy_float_read, truthyDec, hc, h, hq]
    case towerBs =>
      dsimp only
      cases h : read_value_float (pyTrim l) <;>
        simp [Option.or, ed_class_is, k_truthy, k_read, k_rotor, truthy_float_read, hc, h]
    case bldFile =>
      dsimp only
      split
      · split
        · simp [Option.or, ed_class_is, k_truthy, k_read, k_rotor, truthyStr, hc, parse_blade_file_scalars]
        · simp [Option.or, ed_class_is, k_truthy, k_read, k_rotor, truthyStr, hc]
      · simp [Option.or, ed_class_is, k_truthy, k_read, k_rotor, truthyStr, hc]
    case twrFile =>
      dsimp only
      split
      · split
        · simp [Option.or, ed_class_is, k_truthy, k_read, k_rotor, truthyStr, hc, parse_tower_file_scalars]
        · simp [Option.or, ed_class_is, k_truthy, k_read, k_rotor, truthyStr, hc]
      · simp [Option.or, ed_class_is, k_truthy, k_read, k_rotor, truthyStr, hc]
    all_goals simp [Option.or, ed_class_is, k_truthy, k_read, k_rotor, truthy_float_read, hc]

/-- The tower-height field after one structural-parser step. -/
lemma ed_step_towerHeight (files : FileStore) (st : EdState) (l : String) :
    (ed_step files st l).g.towerHeight = (k_truthy EdKw.towerHt l).or st.g.towerHeight :=
  (ed_step_fields files st l).2.2.2.2.2.2.2.1

/-- C9: the tower-height and tower-base-elevation keyword matches are
mutually exclusive on every line of the structural parser: a line
containing `TowerBsHt` never writes `tower.height`, and whenever a step
changes `tower.height` the line contained `TowerHt` and did not contain
`TowerBsHt`. -/
theorem c9_towerht_mutually_exclusive (files : FileStore) (st : EdState) (l : String) :
    (containsSub "TowerBsHt" (pyTrim l) = true →
      (ed_step files st l).g.towerHeight = st.g.towerHeight)
    ∧ ((ed_step files st l).g.towerHeight ≠ st.g.towerHeight →
      containsSub "TowerHt" (pyTrim l) = true
        ∧ containsSub "TowerBsHt" (pyTrim l) = false) := by
  constructor
  · intro hbs
    rw [ed_step_towerHeight]
    have hne : ¬ ed_class l = some EdKw.towerHt := fun hcl => by
      have := (ed_class_towerHt l hcl).2
      rw [hbs] at this
      simp at this
    simp [Option.or, k_truthy, ed_class_is, hne]
  · intro hch
    rw [ed_step_towerHeight] at hch
    by_cases hcl : ed_class l = some EdKw.towerHt
    · exact ed_class_towerHt l hcl
    · simp [Option.or, k_truthy, ed_class_is, hcl] at hch

/-! ## C7: last-write characterization of the scalar fields -/

lemma last_matching_cons (c : String → Bool) (l : String) (ls : List String) :
    last_matching c (l :: ls) =
      (last_matching c ls).or (if c l then some l else none) := by
  simp only [last_matching, List.reverse_cons, List.find?_append]
  cases h : c l <;> simp [List.find?_cons, h]

lemma last_read_cons {α : Type} (k : String → Option α) (l : String) (ls : List String) :
    last_read k (l :: ls) = (last_read k ls).or (k l) := by
  simp only [last_read, List.reverse_cons, List.filterMap_append, List.head?_append]
  cases h : k l <;> simp [List.filterMap_cons, h]

/-- A field written by overwriting on classified lines ends as the
value computed from the last classified line. -/
lemma foldl_field_overwrite {σ α : Type} (f : σ → String → σ) (proj : σ → α)
    (c : String → Bool) (K : String → α)
    (hstep : ∀ s l, proj (f s l) = if c l then K l else proj s) :
    ∀ (lines : List String) (s : σ),
      proj (List.foldl f s lines) =
        match last_matching c lines with
        | some l' => K l'
        | none => proj s := by
  intro lines
  induction lines with
  | nil => intro s; rfl
  | cons l ls ih =>
    intro s
    rw [List.foldl_cons, ih (f s l), last_matching_cons]
    cases h : last_matching c ls with
    | some l' => simp [Option.or]
    | none => cases hc : c l <;> simp [Option.or, hstep, hc]

/-- A field written only when a value arrives ends as the last such
value, in encounter order. -/
lemma foldl_field_keep {σ α : Type} (f : σ → String → σ) (proj : σ → Option α)
    (k : String → Option α)
    (hstep : ∀ s l, proj (f s l) = (k l).or (proj s)) :
    ∀ (lines : List String) (s : σ),
      proj (List.foldl f s lines) = (last_read k lines).or (proj s) := by
  intro lines
  induction lines with
  | nil => intro s; rfl
  | cons l ls ih =>
    intro s
    rw [List.foldl_cons, ih (f s l), last_read_cons, hstep]
    cases h : last_read k ls with
    | some v => simp [Option.or]
    | none => cases hk : k l <;> simp [Option.or, hk]

/-- A field never written stays at its initial value. -/
lemma foldl_field_const {σ α : Type} (f : σ → String → σ) (proj : σ → α)
    (hstep : ∀ s l, proj (f s l) = proj s) :
    ∀ (lines : List String) (s : σ), proj (List.foldl f s lines) = proj s := by
  intro lines
  induction lines with
  | nil => intro s; rfl
  | cons l ls ih => intro s; rw [List.foldl_cons, ih (f s l), hstep]

/-- The scalar fields of `parse_elastodyn_file` in terms of the line
scan, plus the post-scan hub-height derivation. -/
lemma parse_elastodyn_fields (files : FileStore) (content : String) (g : Geometry) :
    ((parse_elastodyn_file files content g).2.numBlades
      = (List.foldl (ed_step files) ⟨g, none, none, none⟩ (pyLines content)).g.numBlades)
    ∧ ((parse_elastodyn_file files content g).2.precone
      = (List.foldl (ed_step files) ⟨g, none, none, none⟩ (pyLines content)).g.precone)
    ∧ ((parse_elastodyn_file files content g).2.hubRadius
      = (List.foldl (ed_step files) ⟨g, none, none, none⟩ (pyLines content)).g.hubRadius)
    ∧ ((parse_elastodyn_file files content g).2.overhang
      = (List.foldl (ed_step files) ⟨g, none, none, none⟩ (pyLines content)).g.overhang)
    ∧ ((parse_elastodyn_file files content g).2.shaftTilt
      = (List.foldl (ed_step files) ⟨g, none, none, none⟩ (pyLines content)).g.shaftTilt)
    ∧ ((parse_elastodyn_file files content g).2.rotorDiameter
      = (List.foldl (ed_step files) ⟨g, none, none, none⟩ (pyLines content)).g.rotorDiameter)
    ∧ ((parse_elastodyn_file files content g).2.bladeLength
      = (List.foldl (ed_step files) ⟨g, none, none, none⟩ (pyLines content)).g.bladeLength)
    ∧ ((parse_elastodyn_file files content g).2.towerHeight
      = (List.foldl (ed_step files) ⟨g, none, none, none⟩ (pyLines content)).g.towerHeight)
    ∧ ((parse_elastodyn_file files content g).2.towerBase
      = (List.foldl (ed_step files) ⟨g, none, none, none⟩ (pyLines content)).g.towerBase)
    ∧ ((parse_elastodyn_file files content g).2.hubHeight
      = match (List.foldl (ed_step files) ⟨g, none, none, none⟩ (pyLines content)).tower_ht with
        | some th =>
          some (match (List.foldl (ed_step files) ⟨g, none, none, none⟩
              (pyLines content)).twr2shft with
            | some t => Dec.add th t
            | none => th)
        | none =>
          (List.foldl (ed_step files) ⟨g, none, none, none⟩ (pyLines content)).g.hubHeight) := by
  simp only [parse_elastodyn_file]
  cases h : (List.foldl (ed_step files) ⟨g, none, none, none⟩ (pyLines content)).tower_ht with
  | none => simp [h]
  | some th =>
    cases h2 : (List.foldl (ed_step files) ⟨g, none, none, none⟩
        (pyLines content)).twr2shft with
    | none => simp [h, h2]
    | some t => simp [h, h2]

/-- C7 amended: every optional scalar field of the structural-parse
result is characterized by a last-value rule over the classified lines,
in encounter order — but the rules differ per field.  `numBlades`,
`precone`, `hub.radius`, `hub.overhang` and `hub.shaftTilt` hold the
read result of the last line matching their keyword (so a later line
whose read fails clears them rather than keeping the previous value);
`tower.baseElevation` holds the last successfully read value;
`rotorDiameter`, `blades.length` and `tower.height` hold the last
truthy (successful and non-zero) read, so a successfully read `0.0`
does not overwrite; `hubHeight` derives from the read results of the
last `TowerHt`- and `Twr2Shft`-matching lines. -/
theorem c7_amended (files : FileStore) (content : String) :
    ((parse_elastodyn_file files content initGeometry).2.numBlades
      = (last_kw_line EdKw.numBl (pyLines content)).bind (fun l => read_value_int (pyTrim l)))
    ∧ ((parse_elastodyn_file files content initGeometry).2.precone
      = (last_kw_line EdKw.preCone (pyLines content)).bind (fun l => read_value_float (pyTrim l)))
    ∧ ((parse_elastodyn_file files content initGeometry).2.hubRadius
      = (last_kw_line EdKw.hubRad (pyLines content)).bind (fun l => read_value_float (pyTrim l)))
    ∧ ((parse_elastodyn_file files content initGeometry).2.overhang
      = (last_kw_line EdKw.overHang (pyLines content)).bind (fun l => read_value_float (pyTrim l)))
    ∧ ((parse_elastodyn_file files content initGeometry).2.shaftTilt
      = (last_kw_line EdKw.shftTilt (pyLines content)).bind (fun l => read_value_float (pyTrim l)))
    ∧ ((parse_elastodyn_file files content initGeometry).2.rotorDiameter
      = last_read k_rotor (pyLines content))
    ∧ ((parse_elastodyn_file files content initGeometry).2.bladeLength
      = last_read (k_truthy EdKw.tipRad) (pyLines content))
    ∧ ((parse_elastodyn_file files content initGeometry).2.towerHeight
      = last_read (k_truthy EdKw.towerHt) (pyLines content))
    ∧ ((parse_elastodyn_file files content initGeometry).2.towerBase
      = last_read (k_read EdKw.towerBs) (pyLines content))
    ∧ ((parse_elastodyn_file files content initGeometry).2.hubHeight
      = ((last_kw_line EdKw.towerHt (pyLines content)).bind
            (fun l => read_value_float (pyTrim l))).map
          (fun th =>
            match (last_kw_line EdKw.twr2Shft (pyLines content)).bind
                (fun l => read_value_float (pyTrim l)) with
            | some t => Dec.add th t
            | none => th)) := by
  have hpost := parse_elastodyn_fields files content initGeometry
  have hov : ∀ (kw : EdKw) (proj : EdState → Option Int)
      (hstep : ∀ s l, proj (ed_step files s l) =
        if ed_class_is kw l then read_value_int (pyTrim l) else proj s)
      (hinit : proj ⟨initGeometry, none, none, none⟩ = none),
      proj (List.foldl (ed_step files) ⟨initGeometry, none, none, none⟩ (pyLines content))
        = (last_kw_line kw (pyLines content)).bind (fun l => read_value_int (pyTrim l)) := by
    intro kw proj hstep hinit
    rw [foldl_field_overwrite (ed_step files) proj (ed_class_is kw)
      (fun l => read_value_int (pyTrim l)) hstep (pyLines content), hinit]
    simp only [last_kw_line]
    cases last_matching (ed_class_is kw) (pyLines content) <;> rfl
  have hovf : ∀ (kw : EdKw) (proj : EdState → Option Dec)
      (hstep : ∀ s l, proj (ed_step files s l) =
        if ed_class_is kw l then read_value_float (pyTrim l) else proj s)
      (hinit : proj ⟨initGeometry, none, none, none⟩ = none),
      proj (List.foldl (ed_step files) ⟨initGeometry, none, none, none⟩ (pyLines content))
        = (last_kw_line kw (pyLines content)).bind (fun l => read_value_float (pyTrim l)) := by
    intro kw proj hstep hinit
    rw [foldl_field_overwrite (ed_step files) proj (ed_class_is kw)
      (fun l => read_value_float (pyTrim l)) hstep (pyLines content), hinit]
    simp only [last_kw_line]
    cases last_matching (ed_class_is kw) (pyLines content) <;> rfl
  have hkp : ∀ (k : String → Option Dec) (proj : EdState → Option Dec)
      (hstep : ∀ s l, proj (ed_step files s l) = (k l).or (proj s))
      (hinit : proj ⟨initGeometry, none, none, none⟩ = none),
      proj (List.foldl (ed_step files) ⟨initGeometry, none, none, none⟩ (pyLines content))
        = last_read k (pyLines content) := by
    intro k proj hstep hinit
    rw [foldl_field_keep (ed_step files) proj k hstep (pyLines content), hinit]
    cases last_read k (pyLines content) <;> rfl
  refine ⟨?_, ?_, ?_, ?_, ?_, ?_, ?_, ?_, ?_, ?_⟩
  · rw [hpost.1]
    exact hov EdKw.numBl (fun st => st.g.numBlades)
      (fun s l => (ed_step_fields files s l).1) rfl
  · rw [hpost.2.1]
    exact hovf EdKw.preCone (fun st => st.g.precone)
      (fun s l => (ed_step_fields files s l).2.1) rfl
  · rw [hpost.2.2.1]
    exact hovf EdKw.hubRad (fun st => st.g.hubRadius)
      (fun s l => (ed_step_fields files s l).2.2.1) rfl
  · rw [hpost.2.2.2.1]
    exact hovf EdKw.overHang (fun st => st.g.overhang)
      (fun s l => (ed_step_fields files s l).2.2.2.1) rfl
  · rw [hpost.2.2.2.2.1]
    exact hovf EdKw.shftTilt (fun st => st.g.shaftTilt)
      (fun s l => (ed_step_fields files s l).2.2.2.2.1) rfl
  · rw [hpost.2.2.2.2.2.1]
    exact hkp k_rotor (fun st => st.g.rotorDiameter)
      (fun s l => (ed_step_fields files s l).2.2.2.2.2.1) rfl
  · rw [hpost.2.2.2.2.2.2.1]
    exact hkp (k_truthy EdKw.tipRad) (fun st => st.g.bladeLength)
      (fun s l => (ed_step_fields files s l).2.2.2.2.2.2.1) rfl
  · rw [hpost.2.2.2.2.2.2.2.1]
    exact hkp (k_truthy EdKw.towerHt) (fun st => st.g.towerHeight)
      (fun s l => (ed_step_fields files s l).2.2.2.2.2.2.2.1) rfl
  · rw [hpost.2.2.2.2.2.2.2.2.1]
    exact hkp (k_read EdKw.towerBs) (fun st => st.g.towerBase)
      (fun s l => (ed_step_fields files s l).2.2.2.2.2.2.2.2.1) rfl
  · rw [hpost.2.2.2.2.2.2.2.2.2]
    have hth : (List.foldl (ed_step files) ⟨initGeometry, none, none, none⟩
        (pyLines content)).tower_ht
        = (last_kw_line EdKw.towerHt (pyLines content)).bind
            (fun l => read_value_float (pyTrim l)) := by
      rw [foldl_field_overwrite (ed_step files) (fun st => st.tower_ht)
        (ed_class_is EdKw.towerHt) (fun l => read_value_float (pyTrim l))
        (fun s l => (ed_step_fields files s l).2.2.2.2.2.2.2.2.2.2.1) (pyLines content)]
      simp only [last_kw_line]
      cases last_matching (ed_class_is EdKw.towerHt) (pyLines content) <;> rfl
    have htw : (List.foldl (ed_step files) ⟨initGeometry, none, none, none⟩
        (pyLines content)).twr2shft
        = (last_kw_line EdKw.twr2Shft (pyLines content)).bind
            (fun l => read_value_float (pyTrim l)) := by
      rw [foldl_field_overwrite (ed_step files) (fun st => st.twr2shft)
        (ed_class_is EdKw.twr2Shft) (fun l => read_value_float (pyTrim l))
        (fun s l => (ed_step_fields files s l).2.2.2.2.2.2.2.2.2.2.2) (pyLines content)]
      simp only [last_kw_line]
      cases last_matching (ed_class_is EdKw.twr2Shft) (pyLines content) <;> rfl
    have hhub : (List.foldl (ed_step files) ⟨initGeometry, none, none, none⟩
        (pyLines content)).g.hubHeight = none :=
      foldl_field_const (ed_step files) (fun st => st.g.hubHeight)
        (fun s l => (ed_step_fields files s l).2.2.2.2.2.2.2.2.2.1) (pyLines content) _
    rw [hth, htw, hhub]
    cases (last_kw_line EdKw.towerHt (pyLines content)).bind
        (fun l => read_value_float (pyTrim l)) <;> rfl

/-- C7 counterexample: after parsing `80.0 TowerHt` followed by
`0.0 TowerHt`, the final `tower.height` is 80.0 although the last value
successfully read for the tower-height keyword, in encounter order, is
0.0 (the truthiness guard ignores a successfully read zero), so the
field is neither absent nor equal to the last value read. -/
theorem c7_counterexample :
    (parse_elastodyn_file [] "80.0 TowerHt\n0.0 TowerHt" initGeometry).2.towerHeight
        = some ⟨80, 0⟩
    ∧ last_kw_line EdKw.towerHt (pyLines "80.0 TowerHt\n0.0 TowerHt") = some "0.0 TowerHt"
    ∧ read_value_float (pyTrim "0.0 TowerHt") = some Dec.zero := by
  decide

/-- Witness for C9: a concrete `TowerBsHt` line leaves `tower.height`
untouched. -/
theorem c9_towerht_mutually_exclusive_witness :
    containsSub "TowerBsHt" (pyTrim "10.0 TowerBsHt") = true
    ∧ (ed_step [] ⟨initGeometry, none, none, none⟩ "10.0 TowerBsHt").g.towerHeight
        = initGeometry.towerHeight :=
  ⟨by decide,
   (c9_towerht_mutually_exclusive [] ⟨initGeometry, none, none, none⟩ "10.0 TowerBsHt").1
     (by decide)⟩

/-! ## C10: delimiter truncation of referenced file names -/

lemma takeWhile_append_of_bad {p : Char → Bool} (l₁ l₂ : List Char)
    (h : ¬ l₁.all p = true) :
    (l₁ ++ l₂).takeWhile p = l₁.takeWhile p := by
  induction l₁ with
  | nil => simp at h
  | cons c cs ih =>
    cases hp : p c with
    | true =>
      rw [List.cons_append, List.takeWhile_cons_of_pos hp, List.takeWhile_cons_of_pos hp,
        ih (by simp_all)]
    | false =>
      rw [List.cons_append, List.takeWhile_cons_of_neg (by simp [hp]),
        List.takeWhile_cons_of_neg (by simp [hp])]

lemma dropWhile_eq_self_of_all {p : Char → Bool} (l : List Char)
    (h : l.all (fun c => !p c) = true) : l.dropWhile p = l := by
  cases l with
  | nil => rfl
  | cons c cs =>
    have hc : ¬ p c = true := by simp [List.all_cons] at h; simp [h.1]
    exact List.dropWhile_cons_of_neg hc

lemma trimList_eq_self {p : Char → Bool} (l : List Char)
    (h : l.all (fun c => !p c) = true) : trimList p l = l := by
  unfold trimList
  rw [dropWhile_eq_self_of_all l h,
    dropWhile_eq_self_of_all l.reverse (by rw [List.all_reverse]; exact h),
    List.reverse_reverse]

lemma all_takeWhile {p q : Char → Bool} (l : List Char) (h : l.all q = true) :
    (l.takeWhile p).all q = true := by
  rw [List.all_eq_true] at h ⊢
  exact fun c hc => h c ((List.takeWhile_sublist p).subset hc)

lemma takeWhile_ne_self_of_any {p : Char → Bool} (l : List Char)
    (h : l.any (fun c => !p c) = true) : l.takeWhile p ≠ l := by
  induction l with
  | nil => simp at h
  | cons c cs ih =>
    cases hp : p c with
    | true =>
      rw [List.takeWhile_cons_of_pos hp]
      intro hcontra
      injection hcontra with _ h2
      exact ih (by simp_all) h2
    | false =>
      rw [List.takeWhile_cons_of_neg (by simp [hp])]
      simp

lemma pyWordsAux_nonws (l : List Char) (hne : l ≠ [])
    (h : l.all (fun c => !isWS c) = true) :
    ∀ acc, pyWordsAux l acc = [String.mk (acc.reverse ++ l)] := by
  induction l with
  | nil => exact absurd rfl hne
  | cons c cs ih =>
    intro acc
    have hc : isWS c = false := by
      simp [List.all_cons] at h
      simp [h.1]
    cases cs with
    | nil => simp [pyWordsAux, hc]
    | cons d ds =>
      have h2 : (d :: ds).all (fun c => !isWS c) = true := by
        simp [List.all_cons] at h ⊢
        exact h.2
      rw [show pyWordsAux (c :: d :: ds) acc
          = if isWS c then (if acc = [] then pyWordsAux (d :: ds) []
              else String.mk acc.reverse :: pyWordsAux (d :: ds) [])
            else pyWordsAux (d :: ds) (c :: acc) from rfl]
      rw [if_neg (by simp [hc])]
      rw [ih (by simp) h2 (c :: acc)]
      simp

/-- The tolerant reader, applied to a line whose leading token is a
quote-free, whitespace-free file name containing a `!` or `-`: the
string read is the name truncated at the first such character, a strict
non-empty prefix of the name. -/
lemma read_value_str_truncates (fname rest : String)
    (htrim : pyTrim (fname ++ " " ++ rest) = fname ++ " " ++ rest)
    (hw : fname.data.all (fun c => !isWS c) = true)
    (hq : fname.data.all (fun c => c ≠ '"' && c ≠ '\'') = true)
    (hd : fname.data.any (fun c => !notDelim c) = true)
    (hhead : ∃ c0 cs, fname.data = c0 :: cs ∧ notDelim c0 = true) :
    read_value_str (fname ++ " " ++ rest) = some (takeBeforeDelim fname)
    ∧ takeBeforeDelim fname ≠ fname
    ∧ takeBeforeDelim fname ≠ "" := by
  obtain ⟨c0, cs, hfd, hc0⟩ := hhead
  have hnall : ¬ fname.data.all notDelim = true := by
    rw [List.all_eq_true]
    rw [List.any_eq_true] at hd
    obtain ⟨c, hcmem, hcbad⟩ := hd
    intro hall
    rw [hall c hcmem] at hcbad
    simp at hcbad
  have hdata : (fname ++ " " ++ rest).data = fname.data ++ (' ' :: rest.data) := by
    rw [String.data_append, String.data_append, List.append_assoc]
    rfl
  have hpart : takeBeforeDelim (fname ++ " " ++ rest) = takeBeforeDelim fname := by
    unfold takeBeforeDelim
    rw [hdata, takeWhile_append_of_bad _ _ hnall]
  have hp0data : (takeBeforeDelim fname).data = fname.data.takeWhile notDelim := rfl
  have hp0ne : (takeBeforeDelim fname).data ≠ [] := by
    rw [hp0data, hfd, List.takeWhile_cons_of_pos hc0]
    simp
  have hp0nostr : takeBeforeDelim fname ≠ "" := by
    intro hcontra
    exact hp0ne (congrArg String.data hcontra)
  have hp0ws : (takeBeforeDelim fname).data.all (fun c => !isWS c) = true := by
    rw [hp0data]
    exact all_takeWhile _ hw
  have hp0trim : pyTrim (takeBeforeDelim fname) = takeBeforeDelim fname := by
    unfold pyTrim
    rw [trimList_eq_self _ hp0ws]
  have hp0quotes : stripQuotes (takeBeforeDelim fname) = takeBeforeDelim fname := by
    have hq2 : (takeBeforeDelim fname).data.all (fun c => c ≠ '"' && c ≠ '\'') = true := by
      rw [hp0data]
      exact all_takeWhile _ hq
    unfold stripQuotes stripRun
    rw [List.all_eq_true] at hq2
    have hdq : (takeBeforeDelim fname).data.all (fun c => !(c = '"' : Bool)) = true := by
      rw [List.all_eq_true]
      intro c hc
      have := hq2 c hc
      simp_all
    rw [trimList_eq_self _ hdq]
    have hsq : (takeBeforeDelim fname).data.all (fun c => !(c = '\'' : Bool)) = true := by
      rw [List.all_eq_true]
      intro c hc
      have := hq2 c hc
      simp_all
    rw [trimList_eq_self _ hsq]
  have hsplit : pySplit (takeBeforeDelim fname) = [takeBeforeDelim fname] := by
    unfold pySplit
    rw [pyWordsAux_nonws _ hp0ne hp0ws []]
    rfl
  refine ⟨?_, ?_, hp0nostr⟩
  · unfold read_value_str read_value
    rw [htrim, hpart]
    dsimp only
    rw [hp0trim, if_neg hp0nostr, hsplit]
    dsimp only
    rw [hp0quotes]
  · intro hcontra
    exact takeWhile_ne_self_of_any fname.data hd (congrArg String.data hcontra)

/-- C10 counterexample: on the reference line `a-b.dat EDFile` the
reader truncates the filename at the `-` and reads `"a"`; with no
matching file the outcome is not silent: a warning naming the truncated
prefix (not the original filename) is appended by the structural-file
branch. -/
theorem c10_counterexample :
    read_value_str "a-b.dat EDFile" = some "a"
    ∧ (parse_main_file [] "a-b.dat EDFile" initGeometry).2.warnings
        = [ed_not_found_warning "a", no_ed_warning]
    ∧ containsSub "a-b.dat" (ed_not_found_warning "a") = false := by
  decide

/-- C10 amended: for every file-reference line whose leading referenced
filename (whitespace- and quote-free) contains a `-` or `!`, the string
read by the tolerant reader is the filename truncated at the first such
character — a strict, non-empty prefix — so the reference resolves via
the File Store only through that truncated prefix.  When the truncated
prefix does not resolve, a `BldFile`, `TwrFile` or aerodynamic reference
is silently skipped (the state is unchanged), while an `EDFile`
reference appends a warning naming the truncated prefix. -/
theorem c10_amended (fname rest : String) (files : FileStore)
    (st : EdState) (mst : MainState)
    (htrim : pyTrim (fname ++ " " ++ rest) = fname ++ " " ++ rest)
    (hw : fname.data.all (fun c => !isWS c) = true)
    (hq : fname.data.all (fun c => c ≠ '"' && c ≠ '\'') = true)
    (hd : fname.data.any (fun c => !notDelim c) = true)
    (hhead : ∃ c0 cs, fname.data = c0 :: cs ∧ notDelim c0 = true) :
    (read_value_str (fname ++ " " ++ rest) = some (takeBeforeDelim fname)
      ∧ takeBeforeDelim fname ≠ fname)
    ∧ (ed_class (fname ++ " " ++ rest) = some EdKw.bldFile →
        (get_file files (takeBeforeDelim fname) = none →
          ed_step files st (fname ++ " " ++ rest) = st)
        ∧ (∀ c, get_file files (takeBeforeDelim fname) = some c → c ≠ "" →
          ed_step files st (fname ++ " " ++ rest)
            = { st with g := (parse_blade_file c st.g).2 }))
    ∧ (ed_class (fname ++ " " ++ rest) = some EdKw.twrFile →
        (get_file files (takeBeforeDelim fname) = none →
          ed_step files st (fname ++ " " ++ rest) = st)
        ∧ (∀ c, get_file files (takeBeforeDelim fname) = some c → c ≠ "" →
          ed_step files st (fname ++ " " ++ rest)
            = { st with g := (parse_tower_file c st.g).2 }))
    ∧ (main_skip (fname ++ " " ++ rest) = false →
        ed_keyword_match (fname ++ " " ++ rest) = true →
        get_file files (takeBeforeDelim fname) = none →
        main_step files mst (fname ++ " " ++ rest)
          = { mst with g := { mst.g with warnings :=
              mst.g.warnings ++ [ed_not_found_warning (takeBeforeDelim fname)] } })
    ∧ (main_skip (fname ++ " " ++ rest) = false →
        ed_keyword_match (fname ++ " " ++ rest) = false →
        aero_keyword_match (fname ++ " " ++ rest) = true →
        get_file files (takeBeforeDelim fname) = none →
        main_step files mst (fname ++ " " ++ rest) = mst) := by
  have hread := read_value_str_truncates fname rest htrim hw hq hd hhead
  refine ⟨⟨hread.1, hread.2.1⟩, fun hclass => ?_, fun hclass => ?_,
    fun hskip hed hget => ?_, fun hskip hed haero hget => ?_⟩
  · rw [ed_step_eq_branch, hclass]
    dsimp only
    rw [htrim, hread.1]
    constructor
    · intro hget
      simp [truthyStr, hread.2.2, hget]
    · intro c hget hcne
      simp [truthyStr, hread.2.2, hget, hcne]
  · rw [ed_step_eq_branch, hclass]
    dsimp only
    rw [htrim, hread.1]
    constructor
    · intro hget
      simp [truthyStr, hread.2.2, hget]
    · intro c hget hcne
      simp [truthyStr, hread.2.2, hget, hcne]
  · simp only [main_step, hskip, hed, Bool.false_eq_true, if_false, if_true]
    rw [hread.1]
    simp [truthyStr, hread.2.2, hget]
  · simp only [main_step, hskip, hed, haero, Bool.false_eq_true, if_false, if_true]
    rw [hread.1]
    simp [truthyStr, hread.2.2, hget]

/-- Witness for C10: the blade-file reference `a-b.dat BldFile` reads
the truncated name `"a"`, which does not resolve in an empty store, and
the structural-parser step leaves the state unchanged. -/
theorem c10_amended_witness :
    read_value_str ("a-b.dat" ++ " " ++ "BldFile") = some "a"
    ∧ ed_step [] ⟨initGeometry, none, none, none⟩ ("a-b.dat" ++ " " ++ "BldFile")
        = ⟨initGeometry, none, none, none⟩ := by
  have h := c10_amended "a-b.dat" "BldFile" [] ⟨initGeometry, none, none, none⟩
    ⟨initGeometry, false, false⟩ (by decide) (by decide) (by decide) (by decide)
    ⟨'a', ['-', 'b', '.', 'd', 'a', 't'], by decide, by decide⟩
  exact ⟨h.1.1, (h.2.1 (by decide)).1 (by decide)⟩

end FASTr
